import Mathlib

/-!
Shallow embedding of the compressed-shell MCP server core
(src/lib/constants.js, src/lib/permissions.js, src/lib/execution.js,
src/lib/compression.js and the shell tool handler), together with
theorems about its permission resolution, mutation API, execution-result
normalization and compression orchestration.

File-system state (the one-time allow file and the project settings file)
is modelled explicitly: each store is a value describing the file's
content, and the functions that read or write it take and return that
value.  Strings are ASCII in all concrete instances, so JavaScript's
UTF-16 string length coincides with Lean's character count.
-/

namespace CompressedShell

/-- JavaScript whitespace as used by trim and the split regexes, restricted
to the ASCII characters that occur in shell commands. -/
def jsWs (c : Char) : Bool :=
  c = ' ' || c = '\t' || c = '\n' || c = '\r'

/-- Whether the first list is an initial run of the second. -/
def isHeadOf : List Char → List Char → Bool
  | [], _ => true
  | _ :: _, [] => false
  | a :: as, b :: bs => a = b && isHeadOf as bs

/-- JS s.startsWith(pre). -/
def strStartsWith (s pre : String) : Bool :=
  isHeadOf pre.data s.data

/-- JS s.endsWith(post). -/
def strEndsWith (s post : String) : Bool :=
  isHeadOf post.data.reverse s.data.reverse

/-- Remove leading and trailing whitespace characters (JS String.trim). -/
def trimChars (l : List Char) : List Char :=
  ((l.dropWhile jsWs).reverse.dropWhile jsWs).reverse

/-- JS command.trim(). -/
def jsTrim (s : String) : String :=
  String.mk (trimChars s.data)

/-- Split a character list into its maximal whitespace-free runs. -/
def wsTokensAux : List Char → List Char → List (List Char)
  | [], acc => if acc.isEmpty then [] else [acc.reverse]
  | c :: rest, acc =>
    if jsWs c then
      if acc.isEmpty then wsTokensAux rest []
      else acc.reverse :: wsTokensAux rest []
    else wsTokensAux rest (c :: acc)

/-- JS trim-then-split-on-whitespace-runs: command.trim().split on a
whitespace-run regex.  On an all-whitespace command JS yields a single
empty string, mirrored by the first branch. -/
def splitTokens (s : String) : List String :=
  match wsTokensAux (trimChars s.data) [] with
  | [] => [""]
  | ts => ts.map (fun cs => String.mk cs)

/-- First whitespace token of the trimmed command (JS words at index 0). -/
def firstWord (command : String) : String :=
  (splitTokens command).headD ""

/-- getCommandPrefix from src/lib/permissions.js: first two whitespace
tokens when at least two exist, else the sole token. -/
def getCommandPrefix (command : String) : String :=
  match splitTokens command with
  | w0 :: w1 :: _ => w0 ++ " " ++ w1
  | [w0] => w0
  | [] => ""

/-- SAFE_COMMANDS from src/lib/constants.js. -/
def SAFE_COMMANDS : List String :=
  ["cd", "ls", "pwd", "tree", "find", "locate", "which", "whereis", "type",
   "cat", "head", "tail", "less", "more", "file", "stat", "wc", "diff",
   "grep", "egrep", "fgrep", "rg", "ag", "awk", "sed", "sort", "uniq",
   "cut", "tr", "whoami", "hostname", "uname", "date", "uptime", "env",
   "printenv", "id", "git status", "git log", "git branch", "git diff",
   "git show", "git remote", "git config --get", "git config --list",
   "git rev-parse", "git describe", "ps", "top", "htop", "df", "du",
   "free", "lsof", "ping", "curl", "wget", "nslookup", "dig", "host",
   "node --version", "npm --version", "pnpm --version", "yarn --version",
   "python --version", "python3 --version", "pip --version", "go version",
   "rustc --version", "cargo --version", "java -version", "javac -version"]

/-- VERBOSE_COMMANDS from src/lib/constants.js. -/
def VERBOSE_COMMANDS : List String :=
  ["npm", "yarn", "pnpm", "pip", "apt", "apt-get", "brew", "docker",
   "docker-compose", "make", "cargo", "tsc", "webpack", "vite", "eslint",
   "prettier", "npx"]

/-- isSafeCommand from src/lib/permissions.js: the command equals a catalog
entry, starts with an entry plus a space, or its first token equals an
entry. -/
def isSafeCommand (command : String) : Bool :=
  SAFE_COMMANDS.any (fun safe =>
    command == safe || strStartsWith command (safe ++ " ")
      || firstWord command == safe)

/-- Split a command on the shell composition operators of the JS regex
(and-and, or-or, semicolon, single pipe), tried in that order at each
position.  The regex also absorbs surrounding whitespace into the
delimiter; segments here keep that whitespace, which the per-segment trim
inside isVerboseCommand removes, so first tokens agree. -/
def splitSegsAux : List Char → List Char → List (List Char)
  | [], acc => [acc.reverse]
  | '&' :: '&' :: rest, acc => acc.reverse :: splitSegsAux rest []
  | '|' :: '|' :: rest, acc => acc.reverse :: splitSegsAux rest []
  | ';' :: rest, acc => acc.reverse :: splitSegsAux rest []
  | '|' :: rest, acc => acc.reverse :: splitSegsAux rest []
  | c :: rest, acc => splitSegsAux rest (c :: acc)

/-- The list of pipeline segments of a command. -/
def commandSegments (command : String) : List String :=
  (splitSegsAux command.data []).map (fun cs => String.mk cs)

/-- isVerboseCommand from src/lib/permissions.js: some segment's first
token equals a verbose-catalog entry or starts with an entry plus a
hyphen. -/
def isVerboseCommand (command : String) : Bool :=
  (commandSegments command).any (fun cmd =>
    VERBOSE_COMMANDS.any (fun vc =>
      firstWord cmd == vc || strStartsWith (firstWord cmd) (vc ++ "-")))

/-- MIN_LINES from src/lib/constants.js. -/
def MIN_LINES : Nat := 30

/-- JS fullOutput.split of a newline, then .length: one more than the
number of newline characters. -/
def lineCount (s : String) : Nat :=
  s.data.countP (fun c => c = '\n') + 1

/-- Content of the one-time allow file.  valid none models parseable JSON
whose commands field is missing or not an array (defaulted to empty by
the code); corrupt models unparseable content. -/
inductive OnceFile
  | missing
  | corrupt
  | valid (commands : Option (List String))
  deriving DecidableEq

/-- The effective command list the code works with for a one-time file. -/
def onceCommandsOf : OnceFile → List String
  | .missing => []
  | .corrupt => []
  | .valid cs => cs.getD []

/-- isAllowedOnce from src/lib/permissions.js: missing file or parse
failure give false with no write; an exact match is removed (splice at
indexOf, i.e. first occurrence) and the reduced list is written back;
a miss leaves the file untouched. -/
def isAllowedOnce (command : String) : OnceFile → Bool × OnceFile
  | .missing => (false, .missing)
  | .corrupt => (false, .corrupt)
  | .valid cs =>
    let commands := cs.getD []
    if command ∈ commands then
      (true, .valid (some (commands.erase command)))
    else (false, .valid cs)

/-- addAllowOnce from src/lib/permissions.js: default to an empty list on
missing or corrupt file, append the command if absent and write; when the
command is already present nothing is written. -/
def addAllowOnce (command : String) (f : OnceFile) : OnceFile :=
  let commands := onceCommandsOf f
  if command ∈ commands then f
  else .valid (some (commands ++ [command]))

/-- Content of a project settings.local.json.  valid none models
parseable JSON without a permissions.allow array (defaulted to empty);
corrupt models unparseable content. -/
inductive SettingsFile
  | missing
  | corrupt
  | valid (allow : Option (List String))
  deriving DecidableEq

/-- The effective allow list the code works with for a settings file. -/
def allowListOf : SettingsFile → List String
  | .missing => []
  | .corrupt => []
  | .valid a => a.getD []

/-- The JS regex match of a Bash rule anchored at both ends with a lazy
group: succeeds exactly when the rule is Bash-open-paren, a nonempty
middle without line terminators, then colon-star-close-paren, and returns
that middle. -/
def bashRuleContent (rule : String) : Option String :=
  if strStartsWith rule "Bash(" && strEndsWith rule ":*)" && 9 ≤ rule.length then
    let mid := (rule.drop 5).dropRight 3
    if mid.data.any (fun c => c = '\n' || c = '\r') then none else some mid
  else none

/-- One rule test from the loop body of isCommandAllowed: exact command
pattern, two-token pattern, legacy first-word pattern, or a Bash rule
whose content equals the command or is a space-extended proper head of
it. -/
def ruleMatches (command : String) (rule : String) : Bool :=
  rule == "mcp__compressed-shell__shell(command:" ++ command ++ ")"
    || rule == "mcp__compressed-shell__shell(command:"
          ++ getCommandPrefix command ++ " *)"
    || rule == "mcp__compressed-shell__shell(command:"
          ++ firstWord command ++ " *)"
    || (match bashRuleContent rule with
        | some p => command == p || strStartsWith command (p ++ " ")
        | none => false)

/-- isCommandAllowed from src/lib/permissions.js: a missing settings file
or a parse failure yields false; otherwise some rule of the allow list
matches. -/
def isCommandAllowed (command : String) (f : SettingsFile) : Bool :=
  (allowListOf f).any (ruleMatches command)

/-- The durable rule string addToProjectSettings writes for a command
prefix. -/
def durablePermission (commandPfx : String) : String :=
  "mcp__compressed-shell__shell(command:" ++ commandPfx ++ " *)"

/-- Result tag of addToProjectSettings. -/
inductive GrantResult
  | added
  | alreadyExists
  deriving DecidableEq

/-- addToProjectSettings from src/lib/permissions.js: default the allow
list to empty on missing or corrupt file; when the rule is already
present return alreadyExists without writing; otherwise append the rule
and write the updated settings. -/
def addToProjectSettings (commandPfx : String) (f : SettingsFile) :
    GrantResult × SettingsFile :=
  let perm := durablePermission commandPfx
  let allowList := allowListOf f
  if perm ∈ allowList then (.alreadyExists, f)
  else (.added, .valid (some (allowList ++ [perm])))

/-- The allow or deny outcome of the permission check in the shell tool
handler. -/
inductive Decision
  | allow
  | deny
  deriving DecidableEq

/-- The permission-resolution step of handleShellTool (shell tool
handler): isSafeCommand, isAllowedOnce (which may consume a one-time
record) and isCommandAllowed are all evaluated, then the request is
denied exactly when all three are false.  The settings file is only read
here, so it is threaded through unchanged. -/
def resolvePermission (command : String) (once : OnceFile)
    (settings : SettingsFile) : Decision × OnceFile × SettingsFile :=
  let safe := isSafeCommand command
  let onceRes := isAllowedOnce command once
  let allowedAlways := isCommandAllowed command settings
  if !safe && !onceRes.1 && !allowedAlways then (.deny, onceRes.2, settings)
  else (.allow, onceRes.2, settings)

/-- Execution Result shape produced by executeCommand (src/lib/
execution.js).  The duration string is the measured wall clock formatted
by the caller of resolve. -/
structure ExecResult where
  exitCode : Int
  stdout : String
  stderr : String
  duration : String
  deriving DecidableEq

/-- How the spawned subprocess ended: a close event carrying an optional
exit code and the drained streams, or an error event carrying the failure
message. -/
inductive ProcOutcome
  | closed (code : Option Int) (stdout stderr : String)
  | spawnError (message : String)
  deriving DecidableEq

/-- executeCommand from src/lib/execution.js as a function of the process
outcome: on close the null exit code defaults to 0; on a spawn error a
synthetic result with exit code 1, empty stdout and the message as stderr
is resolved.  Both paths resolve the promise, never reject it. -/
def executeCommand (outcome : ProcOutcome) (duration : String) : ExecResult :=
  match outcome with
  | .closed code out err =>
    { exitCode := code.getD 0, stdout := out, stderr := err,
      duration := duration }
  | .spawnError msg =>
    { exitCode := 1, stdout := "", stderr := msg, duration := duration }

/-- The isError flag of the shell tool response: set exactly when the
reported exit code is non-zero. -/
def responseIsError (r : ExecResult) : Bool :=
  r.exitCode != 0

/-- Combined output assembled by the shell tool handler: stdout, plus a
newline and stderr when stderr is nonempty (JS string truthiness). -/
def combineOutput (stdout stderr : String) : String :=
  stdout ++ (if stderr = "" then "" else "\n" ++ stderr)

/-- shouldCompress from the shell tool handler: compress forced true, or
not forced false and the command is verbose-classified and the combined
line count reaches MIN_LINES. -/
def shouldCompress (compress : Option Bool) (command : String)
    (fullOutput : String) : Bool :=
  compress == some true
    || (!(compress == some false) && isVerboseCommand command
          && decide (MIN_LINES ≤ lineCount fullOutput))

/-- Outcome of compressWithHaiku (src/lib/compression.js): the trimmed
oracle text on success, or the caught error's message on any failure
(timeout included). -/
inductive CompressResult
  | ok (text : String)
  | err (message : String)
  deriving DecidableEq

/-- The final-output assembly of the shell tool handler after the oracle
call: a string longer than 10 characters gets the compressed banner; an
error with a truthy (nonempty) message gets the failure banner followed
by the full original output; anything else (a degenerate short string, or
an empty error message) falls through to the bare original output. -/
def finalOutput (compressed : CompressResult) (fullOutput : String)
    (lineCnt : Nat) (exitCode : Int) (duration : String)
    (logFile : String) : String :=
  match compressed with
  | .ok s =>
    if 10 < s.length then
      "[Compressed from " ++ toString lineCnt ++ " lines | Exit: "
        ++ toString exitCode ++ " | Duration: " ++ duration
        ++ "s]\n[Full output: " ++ logFile ++ "]\n\n" ++ s
    else fullOutput
  | .err m =>
    if m = "" then fullOutput
    else
      "[Compression failed: " ++ m ++ "]\n[Full output: " ++ logFile
        ++ "]\n\n" ++ fullOutput

end CompressedShell

namespace CompressedShell

/-! Helper lemmas about the resolution step and the stores. -/

/-- The one-time file after resolution is always the file produced by the
one-time lookup, whatever the decision. -/
theorem resolvePermission_once_eq (command : String) (once : OnceFile)
    (settings : SettingsFile) :
    (resolvePermission command once settings).2.1
      = (isAllowedOnce command once).2 := by
  unfold resolvePermission
  dsimp only
  split <;> rfl

/-- Resolution never writes the settings file. -/
theorem resolvePermission_settings_eq (command : String) (once : OnceFile)
    (settings : SettingsFile) :
    (resolvePermission command once settings).2.2 = settings := by
  unfold resolvePermission
  dsimp only
  split <;> rfl

/-- A one-time lookup that misses leaves the file untouched. -/
theorem isAllowedOnce_miss (command : String) (f : OnceFile)
    (h : (isAllowedOnce command f).1 = false) :
    (isAllowedOnce command f).2 = f := by
  cases f with
  | missing => rfl
  | corrupt => rfl
  | valid cs =>
    unfold isAllowedOnce at *
    by_cases hm : command ∈ cs.getD []
    · simp [hm] at h
    · simp [hm]

/-- A command absent from the effective one-time list is not allowed
once. -/
theorem isAllowedOnce_not_mem (command : String) (f : OnceFile)
    (h : command ∉ onceCommandsOf f) :
    (isAllowedOnce command f).1 = false := by
  cases f with
  | missing => rfl
  | corrupt => rfl
  | valid cs =>
    unfold onceCommandsOf at h
    unfold isAllowedOnce
    simp [h]

end CompressedShell

namespace CompressedShell

/-- C1 (counterexample): a safe-catalog command does not leave the
persisted stores unchanged — resolving the safe command ls while the
one-time store holds the record ls returns allow but consumes that
record, so the one-time store is consulted and mutated. -/
theorem c1_safe_allow_counterexample :
    isSafeCommand "ls" = true ∧
    (resolvePermission "ls" (OnceFile.valid (some ["ls"]))
        SettingsFile.missing).1 = Decision.allow ∧
    (resolvePermission "ls" (OnceFile.valid (some ["ls"]))
        SettingsFile.missing).2.1 ≠ OnceFile.valid (some ["ls"]) := by
  decide

/-- C1 (amended): for every command matching the safe catalog, resolution
returns allow and never writes the durable store, and when the one-time
lookup finds no matching record the one-time store is also unchanged; the
only possible side effect is the consumption of a one-time record equal
to the command, because the lookup still runs for safe commands. -/
theorem c1_safe_allow_frame (command : String) (once : OnceFile)
    (settings : SettingsFile) (h : isSafeCommand command = true) :
    (resolvePermission command once settings).1 = Decision.allow ∧
    (resolvePermission command once settings).2.2 = settings ∧
    ((isAllowedOnce command once).1 = false →
      (resolvePermission command once settings).2.1 = once) := by
  refine ⟨?_, resolvePermission_settings_eq command once settings, ?_⟩
  · unfold resolvePermission
    dsimp only
    simp [h]
  · intro hmiss
    rw [resolvePermission_once_eq]
    exact isAllowedOnce_miss command once hmiss

/-- C1 (witness): the amended frame property at the safe command ls with
both stores absent. -/
theorem c1_safe_allow_frame_witness :
    isSafeCommand "ls" = true ∧
    ((resolvePermission "ls" OnceFile.missing SettingsFile.missing).1
        = Decision.allow ∧
      (resolvePermission "ls" OnceFile.missing SettingsFile.missing).2.2
        = SettingsFile.missing ∧
      ((isAllowedOnce "ls" OnceFile.missing).1 = false →
        (resolvePermission "ls" OnceFile.missing SettingsFile.missing).2.1
          = OnceFile.missing)) :=
  ⟨by decide,
   c1_safe_allow_frame "ls" OnceFile.missing SettingsFile.missing (by decide)⟩

/-- C7: a spawn failure is normalized into a synthetic Execution Result
with non-zero exit code, empty stdout, the failure message as stderr and
the measured duration; executeCommand is a total function resolving a
result, never an unhandled fault. -/
theorem c7_spawn_failure_normalized (msg dur : String) :
    executeCommand (ProcOutcome.spawnError msg) dur
      = { exitCode := 1, stdout := "", stderr := msg, duration := dur } ∧
    (executeCommand (ProcOutcome.spawnError msg) dur).exitCode ≠ 0 := by
  exact ⟨rfl, by simp [executeCommand]⟩

/-- C8: an absent, unparseable or wrongly shaped persisted store is
treated as empty during resolution lookups: the one-time lookup reports
no match and leaves the file as it was, and the durable lookup matches
nothing; both lookups return plain values, surfacing no error. -/
theorem c8_fail_open (command : String) :
    isAllowedOnce command OnceFile.missing = (false, OnceFile.missing) ∧
    isAllowedOnce command OnceFile.corrupt = (false, OnceFile.corrupt) ∧
    isAllowedOnce command (OnceFile.valid none)
      = (false, OnceFile.valid none) ∧
    isCommandAllowed command SettingsFile.missing = false ∧
    isCommandAllowed command SettingsFile.corrupt = false ∧
    isCommandAllowed command (SettingsFile.valid none) = false := by
  refine ⟨rfl, rfl, ?_, rfl, rfl, rfl⟩
  unfold isAllowedOnce
  simp

/-- C10: a close event with a null exit code (signal termination) is
reported as exit code 0, so the response error flag is false; the flag is
set exactly when the reported exit code is non-zero. -/
theorem c10_null_exit_reported_success (out err dur : String) :
    (executeCommand (ProcOutcome.closed none out err) dur).exitCode = 0 ∧
    responseIsError (executeCommand (ProcOutcome.closed none out err) dur)
      = false ∧
    (∀ r : ExecResult, responseIsError r = true ↔ r.exitCode ≠ 0) := by
  refine ⟨rfl, rfl, fun r => ?_⟩
  simp [responseIsError]

end CompressedShell

namespace CompressedShell

/-- C2 (counterexample): when the oracle returns a degenerate result (the
two-character string ok), the final text is the bare original output with
no compression-failed banner and no artifact path, refuting the claimed
banner-plus-path-plus-output shape for the degenerate case. -/
theorem c2_fallback_counterexample :
    finalOutput (CompressResult.ok "ok") "hello world output" 1 0 "0.10"
        "/tmp/log" = "hello world output" ∧
    strStartsWith "hello world output" "[Compression failed" = false := by
  decide

/-- C2 (amended): when the oracle fails or times out with a nonempty
error message, the final text is the compression-failed banner naming the
message, the artifact path, then the complete unmodified original output;
when the oracle returns a degenerate result (a string of at most 10
characters), the final text is the complete unmodified original output
alone, with no banner. -/
theorem c2_fallback_shape (m fullOut s : String) (lineCnt : Nat)
    (exitCode : Int) (dur logFile : String) (hm : m ≠ "")
    (hs : s.length ≤ 10) :
    finalOutput (CompressResult.err m) fullOut lineCnt exitCode dur logFile
      = "[Compression failed: " ++ m ++ "]\n[Full output: " ++ logFile
          ++ "]\n\n" ++ fullOut ∧
    finalOutput (CompressResult.ok s) fullOut lineCnt exitCode dur logFile
      = fullOut := by
  constructor
  · unfold finalOutput
    simp [hm]
  · unfold finalOutput
    simp [Nat.not_lt.mpr hs]

/-- C2 (witness): the amended fallback shapes at a concrete failure
message and a concrete degenerate oracle result. -/
theorem c2_fallback_shape_witness :
    "timed out" ≠ "" ∧ ("ok" : String).length ≤ 10 ∧
    (finalOutput (CompressResult.err "timed out") "raw output" 42 2 "31.00"
        "/tmp/x.log"
      = "[Compression failed: " ++ "timed out" ++ "]\n[Full output: "
          ++ "/tmp/x.log" ++ "]\n\n" ++ "raw output" ∧
     finalOutput (CompressResult.ok "ok") "raw output" 42 2 "31.00"
        "/tmp/x.log" = "raw output") :=
  ⟨by decide, by decide,
   c2_fallback_shape "timed out" "raw output" "ok" 42 2 "31.00" "/tmp/x.log"
     (by decide) (by decide)⟩

/-- C9: a denied resolution leaves both persisted stores unchanged — the
one-time write happens only on a successful match, which would have
produced allow, and the durable store is only read. -/
theorem c9_deny_no_side_effects (command : String) (once : OnceFile)
    (settings : SettingsFile)
    (h : (resolvePermission command once settings).1 = Decision.deny) :
    (resolvePermission command once settings).2.1 = once ∧
    (resolvePermission command once settings).2.2 = settings := by
  have honce : (isAllowedOnce command once).1 = false := by
    by_contra hc
    rw [Bool.not_eq_false] at hc
    unfold resolvePermission at h
    dsimp only at h
    simp [hc] at h
  refine ⟨?_, resolvePermission_settings_eq command once settings⟩
  rw [resolvePermission_once_eq]
  exact isAllowedOnce_miss command once honce

/-- C9 (witness): the deny frame property at a command with no allow path
and both stores absent. -/
theorem c9_deny_no_side_effects_witness :
    (resolvePermission "foobar" OnceFile.missing SettingsFile.missing).1
      = Decision.deny ∧
    ((resolvePermission "foobar" OnceFile.missing SettingsFile.missing).2.1
        = OnceFile.missing ∧
     (resolvePermission "foobar" OnceFile.missing SettingsFile.missing).2.2
        = SettingsFile.missing) :=
  ⟨by decide,
   c9_deny_no_side_effects "foobar" OnceFile.missing SettingsFile.missing
     (by decide)⟩

end CompressedShell

namespace CompressedShell

/-- A successful one-time lookup makes resolution allow. -/
theorem resolvePermission_allow_of_once (command : String) (once : OnceFile)
    (settings : SettingsFile) (h : (isAllowedOnce command once).1 = true) :
    (resolvePermission command once settings).1 = Decision.allow := by
  unfold resolvePermission
  dsimp only
  simp [h]

/-- A durable match makes resolution allow. -/
theorem resolvePermission_allow_of_durable (command : String)
    (once : OnceFile) (settings : SettingsFile)
    (h : isCommandAllowed command settings = true) :
    (resolvePermission command once settings).1 = Decision.allow := by
  unfold resolvePermission
  dsimp only
  simp [h]

/-- With no safe match, no one-time hit and no durable match, resolution
denies. -/
theorem resolvePermission_deny_of_no_match (command : String)
    (once : OnceFile) (settings : SettingsFile)
    (hsafe : isSafeCommand command = false)
    (honce : (isAllowedOnce command once).1 = false)
    (hdur : isCommandAllowed command settings = false) :
    (resolvePermission command once settings).1 = Decision.deny := by
  unfold resolvePermission
  dsimp only
  simp [hsafe, honce, hdur]

/-- After a durable grant the written (or already present) rule is in the
store's allow list. -/
theorem durable_mem_after_grant (P : String) (f : SettingsFile) :
    durablePermission P ∈ allowListOf (addToProjectSettings P f).2 := by
  unfold addToProjectSettings
  dsimp only
  by_cases h : durablePermission P ∈ allowListOf f
  · rw [if_pos h]
    exact h
  · rw [if_neg h]
    simp [allowListOf]

/-- The durable rule for a two-token pattern matches any command whose
derived pattern equals it. -/
theorem ruleMatches_durable (cmd P : String)
    (h : getCommandPrefix cmd = P) :
    ruleMatches cmd (durablePermission P) = true := by
  unfold ruleMatches durablePermission
  rw [← h]
  simp

/-- C3: grant and resolve round-trip — after a durable grant for a
pattern P the stored rule string is exactly the two-token form the
durable lookup checks, so any command whose derived pattern equals P
resolves allow in that project; concretely, granting npm install makes
npm install lodash resolve allow while npm remove lodash still resolves
deny. -/
theorem c3_grant_resolve_roundtrip (P cmd : String) (once : OnceFile)
    (f : SettingsFile) (h : getCommandPrefix cmd = P) :
    durablePermission P ∈ allowListOf (addToProjectSettings P f).2 ∧
    (resolvePermission cmd once (addToProjectSettings P f).2).1
      = Decision.allow ∧
    (resolvePermission "npm install lodash" OnceFile.missing
        (addToProjectSettings "npm install" SettingsFile.missing).2).1
      = Decision.allow ∧
    (resolvePermission "npm remove lodash" OnceFile.missing
        (addToProjectSettings "npm install" SettingsFile.missing).2).1
      = Decision.deny := by
  have hmem := durable_mem_after_grant P f
  have hallowed : isCommandAllowed cmd (addToProjectSettings P f).2 = true := by
    unfold isCommandAllowed
    exact List.any_eq_true.mpr
      ⟨durablePermission P, hmem, ruleMatches_durable cmd P h⟩
  exact ⟨hmem,
    resolvePermission_allow_of_durable cmd once _ hallowed,
    by decide, by decide⟩

/-- C3 (witness): the round trip at pattern npm install and command npm
install lodash on empty stores. -/
theorem c3_grant_resolve_roundtrip_witness :
    getCommandPrefix "npm install lodash" = "npm install" ∧
    (durablePermission "npm install"
        ∈ allowListOf (addToProjectSettings "npm install"
            SettingsFile.missing).2 ∧
      (resolvePermission "npm install lodash" OnceFile.missing
          (addToProjectSettings "npm install" SettingsFile.missing).2).1
        = Decision.allow ∧
      (resolvePermission "npm install lodash" OnceFile.missing
          (addToProjectSettings "npm install" SettingsFile.missing).2).1
        = Decision.allow ∧
      (resolvePermission "npm remove lodash" OnceFile.missing
          (addToProjectSettings "npm install" SettingsFile.missing).2).1
        = Decision.deny) :=
  ⟨by decide,
   c3_grant_resolve_roundtrip "npm install" "npm install lodash"
     OnceFile.missing SettingsFile.missing (by decide)⟩

end CompressedShell

namespace CompressedShell

/-- Granting a one-time record on a deduplicated store leaves exactly one
record for that command. -/
theorem count_once_after_add (C : String) (f : OnceFile)
    (h : (onceCommandsOf f).count C ≤ 1) :
    (onceCommandsOf (addAllowOnce C f)).count C = 1 := by
  unfold addAllowOnce
  dsimp only
  by_cases hm : C ∈ onceCommandsOf f
  · rw [if_pos hm]
    have := List.count_pos_iff.mpr hm
    omega
  · rw [if_neg hm]
    show (onceCommandsOf f ++ [C]).count C = 1
    rw [List.count_append, List.count_eq_zero_of_not_mem hm,
      List.count_singleton_self]

/-- A one-time lookup on a store holding exactly one record for the
command reports a hit and removes that record. -/
theorem isAllowedOnce_hit_of_count_one (C : String) (g : OnceFile)
    (h : (onceCommandsOf g).count C = 1) :
    (isAllowedOnce C g).1 = true ∧
    (onceCommandsOf (isAllowedOnce C g).2).count C = 0 := by
  cases g with
  | missing => simp [onceCommandsOf] at h
  | corrupt => simp [onceCommandsOf] at h
  | valid cs =>
    have hcs : (cs.getD []).count C = 1 := by
      simpa [onceCommandsOf] using h
    have hm : C ∈ cs.getD [] := by
      have hpos : 0 < (cs.getD []).count C := by omega
      exact List.count_pos_iff.mp hpos
    unfold isAllowedOnce
    dsimp only
    rw [if_pos hm]
    refine ⟨rfl, ?_⟩
    show ((cs.getD []).erase C).count C = 0
    rw [List.count_erase_self]
    omega

/-- C4: one-time consumption round trip — for a command with no safe or
durable allow path and a deduplicated one-time store, granting it once
makes the next resolution allow while removing the record (its count
drops to zero), and an immediately following second resolution of the
same command denies. -/
theorem c4_once_consumption (C : String) (f : OnceFile)
    (settings : SettingsFile)
    (hsafe : isSafeCommand C = false)
    (hdur : isCommandAllowed C settings = false)
    (hcount : (onceCommandsOf f).count C ≤ 1) :
    (resolvePermission C (addAllowOnce C f) settings).1 = Decision.allow ∧
    (onceCommandsOf
        (resolvePermission C (addAllowOnce C f) settings).2.1).count C
      = 0 ∧
    (resolvePermission C
        (resolvePermission C (addAllowOnce C f) settings).2.1 settings).1
      = Decision.deny := by
  have h1 := count_once_after_add C f hcount
  have h2 := isAllowedOnce_hit_of_count_one C (addAllowOnce C f) h1
  have hfirst : (resolvePermission C (addAllowOnce C f) settings).2.1
      = (isAllowedOnce C (addAllowOnce C f)).2 :=
    resolvePermission_once_eq C (addAllowOnce C f) settings
  have hzero : (onceCommandsOf
      (resolvePermission C (addAllowOnce C f) settings).2.1).count C = 0 := by
    rw [hfirst]
    exact h2.2
  have hnm : C ∉ onceCommandsOf
      (resolvePermission C (addAllowOnce C f) settings).2.1 :=
    List.count_eq_zero.mp hzero
  exact ⟨resolvePermission_allow_of_once C (addAllowOnce C f) settings h2.1,
    hzero,
    resolvePermission_deny_of_no_match C _ settings hsafe
      (isAllowedOnce_not_mem C _ hnm) hdur⟩

/-- C4 (witness): the consumption round trip at npm install lodash on
empty stores. -/
theorem c4_once_consumption_witness :
    isSafeCommand "npm install lodash" = false ∧
    isCommandAllowed "npm install lodash" SettingsFile.missing = false ∧
    (onceCommandsOf OnceFile.missing).count "npm install lodash" ≤ 1 ∧
    ((resolvePermission "npm install lodash"
        (addAllowOnce "npm install lodash" OnceFile.missing)
        SettingsFile.missing).1 = Decision.allow ∧
      (onceCommandsOf
          (resolvePermission "npm install lodash"
            (addAllowOnce "npm install lodash" OnceFile.missing)
            SettingsFile.missing).2.1).count "npm install lodash" = 0 ∧
      (resolvePermission "npm install lodash"
          (resolvePermission "npm install lodash"
            (addAllowOnce "npm install lodash" OnceFile.missing)
            SettingsFile.missing).2.1 SettingsFile.missing).1
        = Decision.deny) :=
  ⟨by decide, by decide, by decide,
   c4_once_consumption "npm install lodash" OnceFile.missing
     SettingsFile.missing (by decide) (by decide) (by decide)⟩

/-- C6: durable-grant idempotence — with a deduplicated store, a second
grant of the identical pattern in the same project reports
already-exists, writes nothing (the store value is unchanged), and the
store holds exactly one copy of the rule. -/
theorem c6_grant_idempotent (P : String) (f : SettingsFile)
    (h : (allowListOf f).count (durablePermission P) ≤ 1) :
    (addToProjectSettings P (addToProjectSettings P f).2).1
      = GrantResult.alreadyExists ∧
    (addToProjectSettings P (addToProjectSettings P f).2).2
      = (addToProjectSettings P f).2 ∧
    (allowListOf (addToProjectSettings P (addToProjectSettings P f).2).2).count
      (durablePermission P) = 1 := by
  by_cases hm : durablePermission P ∈ allowListOf f
  · have h1 : addToProjectSettings P f = (GrantResult.alreadyExists, f) := by
      unfold addToProjectSettings
      dsimp only
      rw [if_pos hm]
    have hc1 : (allowListOf f).count (durablePermission P) = 1 := by
      have := List.count_pos_iff.mpr hm
      omega
    rw [h1]
    dsimp only
    rw [h1]
    exact ⟨rfl, rfl, hc1⟩
  · have h1 : addToProjectSettings P f
        = (GrantResult.added,
            SettingsFile.valid
              (some (allowListOf f ++ [durablePermission P]))) := by
      unfold addToProjectSettings
      dsimp only
      rw [if_neg hm]
    have hmem2 : durablePermission P
        ∈ allowListOf (SettingsFile.valid
            (some (allowListOf f ++ [durablePermission P]))) := by
      simp [allowListOf]
    have h2 : addToProjectSettings P
        (SettingsFile.valid (some (allowListOf f ++ [durablePermission P])))
        = (GrantResult.alreadyExists,
            SettingsFile.valid
              (some (allowListOf f ++ [durablePermission P]))) := by
      unfold addToProjectSettings
      dsimp only
      rw [if_pos hmem2]
    rw [h1]
    dsimp only
    rw [h2]
    refine ⟨rfl, rfl, ?_⟩
    show (allowListOf f ++ [durablePermission P]).count (durablePermission P)
      = 1
    rw [List.count_append, List.count_eq_zero_of_not_mem hm,
      List.count_singleton_self]

/-- C6 (witness): double grant of npm install on an absent settings
file. -/
theorem c6_grant_idempotent_witness :
    (allowListOf SettingsFile.missing).count
        (durablePermission "npm install") ≤ 1 ∧
    ((addToProjectSettings "npm install"
        (addToProjectSettings "npm install" SettingsFile.missing).2).1
      = GrantResult.alreadyExists ∧
      (addToProjectSettings "npm install"
          (addToProjectSettings "npm install" SettingsFile.missing).2).2
        = (addToProjectSettings "npm install" SettingsFile.missing).2 ∧
      (allowListOf (addToProjectSettings "npm install"
          (addToProjectSettings "npm install"
            SettingsFile.missing).2).2).count
        (durablePermission "npm install") = 1) :=
  ⟨by decide, c6_grant_idempotent "npm install" SettingsFile.missing
    (by decide)⟩

end CompressedShell

namespace CompressedShell

/-- C5: compression decision — compression is performed iff the compress
flag is explicitly true, or it is not explicitly false, some segment of
the command (split on the sequencing, pipe and conjunction operators) has
a first token equal to a verbose-catalog entry or to a hyphenated variant
of one, and the combined output line count is at least MIN_LINES (30). -/
theorem c5_compression_decision (compress : Option Bool)
    (command fullOutput : String) :
    shouldCompress compress command fullOutput = true ↔
      (compress = some true ∨
        (compress ≠ some false ∧
          (∃ seg ∈ commandSegments command, ∃ vc ∈ VERBOSE_COMMANDS,
            firstWord seg = vc
              ∨ strStartsWith (firstWord seg) (vc ++ "-") = true) ∧
          MIN_LINES ≤ lineCount fullOutput)) := by
  unfold shouldCompress isVerboseCommand
  simp [List.any_eq_true, and_assoc]

end CompressedShell
